import Mathlib

/-!
Shallow embedding of the KStack crate (src/src/lib.rs): a generic stack
backed by a growable vector, `pub struct KStack<T, const K: usize>(Vec<T>)`,
with windowed bulk operations over the top `K` elements.

The backing `Vec<T>` is modelled as `List T` in the same order: the vector's
tail (its last element) is the top of the stack.  Operations that can panic
are embedded with result type `Option _`; `none` models a panic.  Machine
arithmetic on `usize` is relevant in one place only: `kpop` and `kshow`
iterate over the range `0..=(K - 1)`, and for `K = 0` the subtraction
`K - 1` underflows, so the call panics (in a release build the range wraps
instead and the first write `result[0]` indexes out of bounds of the
zero-length result array — a panic either way).
-/

namespace KStack

variable {T : Type}

/-- Vec::pop on the backing vector: removes and returns the last element
(`none` on an empty vector), in-place. -/
def vecPop (s : List T) : Option T × List T :=
  (s.getLast?, s.dropLast)

/-- KStack::new: `KStack(Vec::<T>::new())`.  The window size `K` is a
const-generic parameter of the type; `new` itself is unconditional — it has
no error path and succeeds for every `K`, including `K = 0`. -/
def new (T : Type) (K : Nat) : List T :=
  []

/-- KStack::pop: `self.0.pop()`. -/
def pop (s : List T) : Option T × List T :=
  vecPop s

/-- KStack::push: `self.0.push(item)`. -/
def push (s : List T) (item : T) : List T :=
  s ++ [item]

/-- The loop of KStack::kpop, `for i in 0..=(K - 1) { result[i] = self.0.pop(); }`,
run for `n` iterations: returns the filled result slots in loop order together
with what is left of the backing vector. -/
def kpopLoop : Nat → List T → List (Option T) × List T
  | 0, s => ([], s)
  | n + 1, s =>
    let p := vecPop s
    let rest := kpopLoop n p.2
    (p.1 :: rest.1, rest.2)

/-- KStack::kpop.  For `K = 0` the range bound `K - 1` underflows `usize`
and the call panics (modelled as `none`); otherwise the loop body runs for
`i = 0, …, K - 1`, popping once per slot. -/
def kpop (K : Nat) (s : List T) : Option (List (Option T) × List T) :=
  if K = 0 then none else some (kpopLoop K s)

/-- KStack::kshow: matches on `self.0.len()` with three arms — empty vector,
`x if x < K`, and the wildcard arm.  The body never writes to `self.0`, so
every returning branch pairs its result with the unchanged vector.  In the
wildcard arm (`len ≥ K` with `len > 0`) the loop range is again `0..=(K - 1)`,
which panics for `K = 0` exactly as in `kpop` (modelled as `none`). -/
def kshow (K : Nat) (s : List T) : Option (List (Option T) × List T) :=
  if s.length = 0 then
    some (List.replicate K (none : Option T), s)
  else if s.length < K then
    some ((List.range s.length).map (fun i => s[s.length - i - 1]?)
      ++ List.replicate (K - s.length) (none : Option T), s)
  else if K = 0 then
    none
  else
    some ((List.range K).map (fun i => s[s.length - i - 1]?), s)

/-- KStack::kpush: `self.0.extend_from_slice(items)`. -/
def kpush (s : List T) (items : List T) : List T :=
  s ++ items

/-- Closed form of the kpop loop: `n` consecutive pops return the top
`min n (s.length)` elements most-recent-first, padded with `none` up to
length `n`, and leave the bottom `s.length - n` elements of the vector. -/
theorem kpopLoop_eq (n : Nat) : ∀ s : List T,
    kpopLoop n s =
      ((s.reverse.map some).take n ++ List.replicate (n - s.length) none,
        s.take (s.length - n)) := by
  induction n with
  | zero =>
    intro s
    simp [kpopLoop]
  | succ n ih =>
    intro s
    rcases s.eq_nil_or_concat with h | ⟨L, a, h⟩ <;> subst h
    · simp [kpopLoop, vecPop, ih, List.replicate_succ]
    · simp only [List.concat_eq_append, kpopLoop, vecPop, List.getLast?_concat,
        List.dropLast_concat, ih, List.reverse_append, List.reverse_cons,
        List.reverse_nil, List.nil_append, List.singleton_append, List.map_cons,
        List.take_succ_cons, List.length_append, List.length_cons,
        List.length_nil, Nat.zero_add, Nat.succ_sub_succ]
      rw [List.take_append_of_le_length (Nat.sub_le _ _)]
      simp [List.cons_append]

/-- The index arithmetic of the kshow loops: reading slots `0, …, K - 1`
from position `len - i - 1` of the vector enumerates the top `K` elements
most-recent-first, i.e. the first `K` entries of the reversed vector. -/
theorem range_map_getElem_eq (K : Nat) (s : List T) (hK : K ≤ s.length) :
    (List.range K).map (fun i => s[s.length - i - 1]?)
      = (s.reverse.map some).take K := by
  apply List.ext_getElem?
  intro n
  by_cases hn : n < K
  · rw [List.getElem?_map, List.getElem?_range hn, Option.map_some',
      List.getElem?_take, if_pos hn, List.getElem?_map,
      List.getElem?_reverse (by omega : n < s.length),
      List.getElem?_eq_getElem (show s.length - 1 - n < s.length by omega),
      List.getElem?_eq_getElem (show s.length - n - 1 < s.length by omega),
      Option.map_some']
    have hidx : s.length - n - 1 = s.length - 1 - n := by omega
    simp [hidx]
  · rw [List.getElem?_eq_none (by simp; omega),
      List.getElem?_eq_none (by simp; omega)]

/-- Special case `K = s.length`: the small-stack kshow loop reads out the
whole vector in reverse. -/
theorem range_map_getElem_full (s : List T) :
    (List.range s.length).map (fun i => s[s.length - i - 1]?)
      = s.reverse.map some := by
  rw [range_map_getElem_eq s.length s le_rfl,
    List.take_of_length_le (by simp)]

/-- Claim C1: for every stack state and every K ≥ 1, kpop returns a sequence
of exactly K optional slots where slot i holds the (i+1)-th element from the
top when the stack held at least i+1 elements and is absent otherwise, and
afterwards the min(K, length) top elements have been removed, the stack
becoming empty when it held fewer than K elements. -/
theorem kpop_slots (K : Nat) (hK : 1 ≤ K) (s : List T) :
    ∃ r s', kpop K s = some (r, s') ∧
      r.length = K ∧
      (∀ i, i < K → r[i]? = some (if i < s.length then s[s.length - 1 - i]? else none)) ∧
      s' = s.take (s.length - K) ∧
      (s.length < K → s' = []) := by
  refine ⟨(s.reverse.map some).take K ++ List.replicate (K - s.length) none,
    s.take (s.length - K), ?_, ?_, ?_, rfl, ?_⟩
  · rw [kpop, if_neg (by omega), kpopLoop_eq]
  · simp only [List.length_append, List.length_take, List.length_map,
      List.length_reverse, List.length_replicate]
    omega
  · intro i hi
    by_cases his : i < s.length
    · rw [List.getElem?_append, if_pos (by
        simp only [List.length_take, List.length_map, List.length_reverse]
        omega), List.getElem?_take, if_pos hi, List.getElem?_map,
        List.getElem?_reverse his,
        List.getElem?_eq_getElem (show s.length - 1 - i < s.length by omega),
        Option.map_some', if_pos his]
    · rw [List.getElem?_append, if_neg (by
        simp only [List.length_take, List.length_map, List.length_reverse]
        omega)]
      have hlen : ((s.reverse.map some).take K).length = s.length := by
        simp only [List.length_take, List.length_map, List.length_reverse]
        omega
      rw [hlen, List.getElem?_replicate, if_pos (by omega), if_neg his]
  · intro h
    rw [show s.length - K = 0 by omega, List.take_zero]

/-- Claim C1, witness: K = 3 on the stack 1, 2, 3, 4 (top = 4). -/
theorem kpop_slots_witness :
    ∃ r s', kpop 3 ([1, 2, 3, 4] : List Int) = some (r, s') ∧
      r.length = 3 ∧
      (∀ i, i < 3 → r[i]? = some (if i < ([1, 2, 3, 4] : List Int).length then
        ([1, 2, 3, 4] : List Int)[([1, 2, 3, 4] : List Int).length - 1 - i]? else none)) ∧
      s' = ([1, 2, 3, 4] : List Int).take (([1, 2, 3, 4] : List Int).length - 3) ∧
      (([1, 2, 3, 4] : List Int).length < 3 → s' = []) :=
  kpop_slots 3 (by decide) [1, 2, 3, 4]

/-- Claim C8: kpop on an empty stack (with K ≥ 1) returns all K slots absent,
leaves the stack empty, and does not panic. -/
theorem kpop_empty (K : Nat) (hK : 1 ≤ K) :
    kpop K ([] : List T) = some (List.replicate K none, []) := by
  rw [kpop, if_neg (by omega), kpopLoop_eq]
  simp

/-- Claim C8, witness: K = 3 on the empty stack of integers. -/
theorem kpop_empty_witness :
    kpop 3 ([] : List Int) = some (List.replicate 3 none, []) :=
  kpop_empty 3 (by decide)

/-- Claim C9: when the stack holds n ≥ K elements (K ≥ 1), kpop removes
exactly the top K of them — it returns them most-recent-first and the
remaining stack is the original bottom n − K elements in their order. -/
theorem kpop_removes_top_K (K : Nat) (s : List T) (hK : 1 ≤ K)
    (hlen : K ≤ s.length) :
    kpop K s = some ((s.drop (s.length - K)).reverse.map some,
      s.take (s.length - K)) := by
  rw [kpop, if_neg (by omega), kpopLoop_eq,
    show K - s.length = 0 by omega, List.replicate_zero, List.append_nil,
    ← List.map_take, List.take_reverse]

/-- Claim C9, witness: K = 3 on the stack 1, 2, 3, 4, 5 (top = 5). -/
theorem kpop_removes_top_K_witness :
    kpop 3 ([1, 2, 3, 4, 5] : List Int)
      = some ((([1, 2, 3, 4, 5] : List Int).drop (([1, 2, 3, 4, 5] : List Int).length - 3)).reverse.map some,
        ([1, 2, 3, 4, 5] : List Int).take (([1, 2, 3, 4, 5] : List Int).length - 3)) :=
  kpop_removes_top_K 3 [1, 2, 3, 4, 5] (by decide) (by decide)

/-- Helper shared by the kpush claims: extending the backing vector by a
slice equals folding single pushes over the slice in order. -/
theorem kpush_eq_foldl_push (s items : List T) :
    kpush s items = List.foldl push s items := by
  induction items generalizing s with
  | nil => simp [kpush]
  | cons a l ih =>
    rw [List.foldl_cons, ← ih (push s a)]
    simp [kpush, push]

/-- Claim C6: kpush(items) produces exactly the stack obtained by pushing
the elements of items one by one in order (so the last element of items is
the new top), and kpush of the empty sequence is a no-op. -/
theorem kpush_pushes_in_order (s items : List T) :
    kpush s items = List.foldl push s items ∧ kpush s ([] : List T) = s :=
  ⟨kpush_eq_foldl_push s items, by simp [kpush]⟩

/-- Claim C10: two consecutive kpush calls equal one kpush of the
concatenated input sequence. -/
theorem kpush_kpush (s s1 s2 : List T) :
    kpush (kpush s s1) s2 = kpush s (s1 ++ s2) := by
  simp [kpush, List.append_assoc]

/-- Claim C7: after pushing p1, …, pn onto an empty stack, n pops return
pn, …, p1 in that order and the (n+1)-th pop returns absent. -/
theorem push_pop_inverse (ps : List T) :
    (kpopLoop ps.length (List.foldl push [] ps)).1 = ps.reverse.map some ∧
    (pop (kpopLoop ps.length (List.foldl push [] ps)).2).1 = none := by
  have hs : List.foldl push ([] : List T) ps = ps := by
    rw [← kpush_eq_foldl_push]
    simp [kpush]
  rw [hs, kpopLoop_eq]
  constructor
  · rw [List.take_of_length_le (by simp)]
    simp
  · simp [pop, vecPop]

/-- Claim C2 is refuted by the code: with K = 0, construction still succeeds
(new has no error path), yet kpop panics on every stack — including the empty
stack reachable immediately after construction — and kshow panics on every
non-empty stack, because the loop range `0..=(K - 1)` underflows.  The panic
is the modelled `none` result. -/
theorem ops_panic_at_K_zero :
    kpop 0 (new Int 0) = none ∧ kshow 0 (push (new Int 0) 1) = none :=
  ⟨rfl, rfl⟩

/-- Claim C3 is refuted by the code: new never rejects any window size — it
succeeds for K = 0 exactly as for K = 1, returning the empty stack, and there
is no InvalidConfiguration value or compile-time exclusion of K = 0 anywhere.
The part of the claim about K ≥ 1 does hold: construction yields an empty
stack on which pop returns absent. -/
theorem new_never_rejects :
    new Int 0 = [] ∧ new Int 1 = [] ∧ (pop (new Int 1)).1 = none :=
  ⟨rfl, rfl, rfl⟩

/-- Helper for the kshow claims: whenever kshow returns (does not panic),
the backing vector it hands back is the input vector — the body never
mutates `self.0`. -/
theorem kshow_state (K : Nat) (s : List T) (p : List (Option T) × List T)
    (h : kshow K s = some p) : p.2 = s := by
  unfold kshow at h
  split_ifs at h
  · injection h with h
    subst h
    rfl
  · injection h with h
    subst h
    rfl
  · injection h with h
    subst h
    rfl

/-- Claim C4: kshow leaves the stack unchanged, and an immediately repeated
kshow call returns the identical result on the identical state. -/
theorem kshow_frame (K : Nat) (s s₁ : List T) (r : List (Option T))
    (h : kshow K s = some (r, s₁)) :
    s₁ = s ∧ kshow K s₁ = some (r, s₁) := by
  have hs : s₁ = s := kshow_state K s (r, s₁) h
  subst hs
  exact ⟨rfl, h⟩

/-- Claim C4, witness: K = 3 on the stack 1, 2, 3, 4 (top = 4). -/
theorem kshow_frame_witness :
    kshow 3 ([1, 2, 3, 4] : List Int)
        = some ([some 4, some 3, some 2], [1, 2, 3, 4]) ∧
      ([1, 2, 3, 4] : List Int) = [1, 2, 3, 4] ∧
      kshow 3 ([1, 2, 3, 4] : List Int)
        = some ([some 4, some 3, some 2], [1, 2, 3, 4]) :=
  ⟨by decide, kshow_frame 3 [1, 2, 3, 4] [1, 2, 3, 4] [some 4, some 3, some 2] (by decide)⟩

/-- Claim C5: for K ≥ 1, kshow followed immediately by kpop (which then runs
on the unchanged state) returns the identical sequence in identical slot
order. -/
theorem kshow_kpop_agree (K : Nat) (hK : 1 ≤ K) (s : List T) :
    ∃ r s₂, kshow K s = some (r, s) ∧ kpop K s = some (r, s₂) := by
  by_cases h0 : s.length = 0
  · have hs : s = [] := List.length_eq_zero.mp h0
    subst hs
    refine ⟨List.replicate K none, [], by simp [kshow], ?_⟩
    rw [kpop, if_neg (by omega), kpopLoop_eq]
    simp
  · by_cases hK2 : s.length < K
    · refine ⟨(List.range s.length).map (fun i => s[s.length - i - 1]?)
        ++ List.replicate (K - s.length) none, s.take (s.length - K),
        by rw [kshow, if_neg h0, if_pos hK2], ?_⟩
      rw [kpop, if_neg (by omega), kpopLoop_eq,
        List.take_of_length_le (by simp; omega), range_map_getElem_full]
    · refine ⟨(List.range K).map (fun i => s[s.length - i - 1]?),
        s.take (s.length - K),
        by rw [kshow, if_neg h0, if_neg hK2, if_neg (by omega)], ?_⟩
      rw [kpop, if_neg (by omega), kpopLoop_eq,
        show K - s.length = 0 by omega, List.replicate_zero, List.append_nil,
        range_map_getElem_eq K s (by omega)]

/-- Claim C5, witness: K = 3 on the stack 1, 2, 3, 4 (top = 4). -/
theorem kshow_kpop_agree_witness :
    ∃ r s₂, kshow 3 ([1, 2, 3, 4] : List Int) = some (r, [1, 2, 3, 4]) ∧
      kpop 3 ([1, 2, 3, 4] : List Int) = some (r, s₂) :=
  kshow_kpop_agree 3 (by decide) [1, 2, 3, 4]

end KStack
